import Mathlib

/-!
# Verification of the ai-weather refresh pipeline

Shallow embedding of the core of the `aiweather` package: the AI orchestrator
(`aiweather/ai/manager.py`), the archive store (`aiweather/storage/archive.py`),
the cycle scheduler (`aiweather/scheduler/jobs.py`), the state cache
(`aiweather/state/service.py`) and the websocket broadcast hub
(`aiweather/websocket/server.py`), together with proofs of the spec-level
properties of these components.

Modelling conventions:
* Python `dict` values keyed by strings are association lists with Python
  insertion semantics (first-insertion order, value of an existing key
  replaced in place).
* The filesystem visible to the archive store is an association list from
  path to file content; `open(path, "w")` is an overwriting insert.
* Wall-clock instants (`datetime.now()`) are natural numbers counting
  microseconds (the resolution of Python `datetime`); absolute timestamps
  carry both their calendar fields (used by `strftime`) and their position
  on the epoch timeline in microseconds (used by `timedelta` arithmetic).
* Coroutine results are modelled functionally: each worker's backend
  behaviour for one cycle (the chunks its stream would deliver and its
  final success or failure) is an oracle value consumed by the embedded
  task body.
-/

namespace AIWeather

/-! ## Configuration (`aiweather/config/models.py`) -/

/-- Structure `AIModelConfig` from `config/models.py` (fields used by the core;
`temperature` is a float forwarded opaquely to the backend and is omitted). -/
structure AIModelConfig where
  name : String
  provider : String
  model_id : String
  timeout : Nat
  enabled : Bool
  deriving Repr, DecidableEq

/-- Modelled from the spec: the `AIConfig` settings section and `load_settings`
are declared by `config/__init__.py` (imported from `config.models` / a
`config.loader` module absent from the snapshot) and consumed by
`manager.py` as `settings.ai.max_concurrent`; the spec (§4.2 step 6) describes
it as a global concurrency limit where `0` means unbounded concurrency. -/
structure AIConfig where
  max_concurrent : Nat
  deriving Repr, DecidableEq

/-- The `Settings` aggregate from `config/models.py` (fields the core reads). -/
structure Settings where
  ai_models : List AIModelConfig
  ai : AIConfig
  prompt_template : String
  deriving Repr, DecidableEq

/-- Method `Settings.get_enabled_ai_model_names` from `config/models.py`:
`[model.name for model in self.ai_models if model.enabled]`. -/
def Settings.get_enabled_ai_model_names (s : Settings) : List String :=
  (s.ai_models.filter (fun m => m.enabled)).map (fun m => m.name)

/-! ## Python dictionaries -/

/-- One Python `dict` insertion: `d[k] = v`.  An existing key keeps its
position and gets the new value; a new key is appended. -/
def dictInsert (d : List (String × String)) (k v : String) : List (String × String) :=
  if d.any (fun p => p.1 = k) then
    d.map (fun p => if p.1 = k then (k, v) else p)
  else
    d ++ [(k, v)]

/-- Python `dict(pairs)`: fold the pairs into an empty dict. -/
def pyDict (l : List (String × String)) : List (String × String) :=
  l.foldl (fun d p => dictInsert d p.1 p.2) []

/-- Python `d.get(k)` on an association list. -/
def dictGet (d : List (String × String)) (k : String) : Option String :=
  (d.find? (fun p => p.1 = k)).map (fun p => p.2)

/-! ## Filesystem model and archive store (`aiweather/storage/archive.py`) -/

/-- The filesystem as seen by the archive store: path ↦ content. -/
abbrev FileSystem : Type := List (String × String)

/-- Python `open(path, "w")` followed by a full write: overwrite-or-create. -/
def fsWrite (fs : FileSystem) (path content : String) : FileSystem :=
  if fs.any (fun p => p.1 = path) then
    fs.map (fun p => if p.1 = path then (path, content) else p)
  else
    fs ++ [(path, content)]

/-- Python `Path.exists()` within the modelled tree. -/
def fsExists (fs : FileSystem) (path : String) : Bool :=
  fs.any (fun p => p.1 = path)

/-- Read a file's content, `none` when the path does not exist. -/
def fsRead (fs : FileSystem) (path : String) : Option String :=
  (fs.find? (fun p => p.1 = path)).map (fun p => p.2)

/-- Zero-pad to two digits, as `strftime` does for `%m`, `%d`, `%H`. -/
def pad2 (n : Nat) : String :=
  if n < 10 then "0" ++ toString n else toString n

/-- Zero-pad to four digits, as `strftime` does for `%Y` (years in range). -/
def pad4 (n : Nat) : String :=
  if n < 10 then "000" ++ toString n
  else if n < 100 then "00" ++ toString n
  else if n < 1000 then "0" ++ toString n
  else toString n

/-- A Python `datetime`: the calendar fields read by `strftime`, plus the
instant on the epoch timeline in microseconds used for `timedelta`
arithmetic (`tzinfo` handling is flattened into the absolute instant). -/
structure PyDateTime where
  year : Nat
  month : Nat
  day : Nat
  hour : Nat
  epochUs : Int
  deriving Repr, DecidableEq

/-- Method `ArchiveManager.get_hourly_dir`: `base_dir / strftime("%Y-%m") / strftime("%d-%H")`. -/
def get_hourly_dir (base : String) (t : PyDateTime) : String :=
  base ++ "/" ++ pad4 t.year ++ "-" ++ pad2 t.month ++ "/" ++ pad2 t.day ++ "-" ++ pad2 t.hour

/-- Python `str.replace(old, new)` with single-character pattern and
replacement: every occurrence of the character is replaced. -/
def pyReplaceChar (s : String) (old new : Char) : String :=
  String.mk (s.data.map (fun c => if c = old then new else c))

/-- Method `ArchiveManager.get_model_filename`:
`model_name.replace(" ", "_").replace("/", "_") + ".html"`. -/
def get_model_filename (model_name : String) : String :=
  pyReplaceChar (pyReplaceChar model_name ' ' '_') '/' '_' ++ ".html"

/-- Abstraction of `json.dumps` for the metadata record written by
`ArchiveManager.save_metadata`; no claim depends on the serialization format,
only on the write happening into `metadata.json`. -/
def metadataJson (timestamp : String) (models : List String) (prompt : String) : String :=
  "timestamp=" ++ timestamp ++ ";models=" ++ String.intercalate "," models ++ ";prompt=" ++ prompt

/-- Rendering `PyDateTime.isoformat` is abstracted to an injective rendering of the
calendar fields; only its round-tripping through the state cache matters. -/
def PyDateTime.isoformat (t : PyDateTime) : String :=
  pad4 t.year ++ "-" ++ pad2 t.month ++ "-" ++ pad2 t.day ++ "T" ++ pad2 t.hour ++ ":00:00"

/-- Method `ArchiveManager.save_metadata`: writes `metadata.json` in the hourly dir. -/
def save_metadata (base : String) (fs : FileSystem) (t : PyDateTime)
    (models : List String) (prompt : String) : FileSystem :=
  fsWrite fs (get_hourly_dir base t ++ "/metadata.json")
    (metadataJson t.isoformat models prompt)

/-- Method `ArchiveManager.save_weather`: writes the raw payload verbatim into
`weather.json` in the hourly directory. -/
def save_weather (base : String) (fs : FileSystem) (t : PyDateTime)
    (weather_json : String) : FileSystem :=
  fsWrite fs (get_hourly_dir base t ++ "/weather.json") weather_json

/-- Method `ArchiveManager.save_visualization`: writes one worker's output into
`<safe model name>.html` in the hourly directory. -/
def save_visualization (base : String) (fs : FileSystem) (t : PyDateTime)
    (model_name html : String) : FileSystem :=
  fsWrite fs (get_hourly_dir base t ++ "/" ++ get_model_filename model_name) html

/-- Method `ArchiveManager.get_missing_models`: the expected models whose artifact
file does not exist in the hourly directory (existence check only). -/
def get_missing_models (base : String) (fs : FileSystem) (t : PyDateTime)
    (models : List String) : List String :=
  models.filter (fun m => !(fsExists fs (get_hourly_dir base t ++ "/" ++ get_model_filename m)))

/-- The per-model loading loop of `ArchiveManager._load_hour_data`: read each
expected model's artifact when present. -/
def load_visualizations (fs : FileSystem) (hour_dir : String)
    (models : List String) : List (String × String) :=
  models.filterMap (fun m =>
    (fsRead fs (hour_dir ++ "/" ++ get_model_filename m)).map (fun c => (m, c)))

/-! ## Orchestrator (`aiweather/ai/manager.py`) -/

/-- Python `timedelta.seconds` of a non-negative delta given in microseconds: the
whole-second component below one day (`days` are dropped by `.seconds`). -/
def tdSeconds (deltaUs : Nat) : Nat :=
  (deltaUs / 1000000) % 86400

/-- The final outcome of `await asyncio.wait_for(provider.generate_html(...))`
for one worker: the completed text, or the exception raised (timeout,
backend error, malformed response, ...) rendered as its `str(e)`. -/
inductive GenOutcome where
  | success (html : String)
  | failure (err : String)
  deriving Repr, DecidableEq

/-- Oracle for one worker's backend behaviour during one cycle: the instant
the task body started (`last_update = datetime.now()`), the accumulated-text
chunks its stream delivers (arrival instant in microseconds, accumulated
html so far), and the final outcome of the awaited call. -/
structure BackendRun where
  startUs : Nat
  chunks : List (Nat × String)
  outcome : GenOutcome
  deriving Repr, DecidableEq

/-- The throttle inside `model_chunk_callback` (manager.py:83-88): a chunk is
forwarded iff `(datetime.now() - last_update).seconds >= 5`, and a forwarded
chunk resets `last_update` to its arrival instant. Returns the forwarded
chunks. -/
def throttleChunks (lastUpdate : Nat) : List (Nat × String) → List (Nat × String)
  | [] => []
  | (t, h) :: rest =>
    if 5 ≤ tdSeconds (t - lastUpdate) then
      (t, h) :: throttleChunks t rest
    else
      throttleChunks lastUpdate rest

/-- A piece of the error template `static/templates/error.html` (the file is
outside the snapshot; `_error_html` renders it with Python `str.format`,
substituting the `model_name` and `error` placeholders). -/
inductive TemplatePiece where
  | lit (s : String)
  | modelName
  | errorText
  deriving Repr, DecidableEq

/-- Method `AIManager._error_html` (manager.py:137-147):
`self._error_template.format(model_name=model_name, error=error)`. -/
def error_html (tmpl : List TemplatePiece) (model_name error : String) : String :=
  (tmpl.map (fun p =>
    match p with
    | .lit s => s
    | .modelName => model_name
    | .errorText => error)).foldl (fun a b => a ++ b) ""

/-- What one worker task produced: the `(model_name, html)` pair returned to
`asyncio.gather`, and the sequence of `on_update(model_name, html)`
invocations the task performed, in order. -/
structure TaskResult where
  result : String × String
  updates : List (String × String)
  deriving Repr, DecidableEq

/-- The task body `generate_with_callback` (manager.py:61-114).
`providersKeys` is the key set of `self.providers` (`["ollama"]` after
`__init__`); `hasOnUpdate` is whether the caller supplied `on_update`;
`run` is the backend oracle for this worker.  The `try` block resolves the
provider (an unknown provider raises before any chunk arrives), streams with
the throttled chunk callback, and on success forwards the final html
unconditionally; any exception is caught at this boundary, converted via the
error template, forwarded once, and returned as an ordinary result. -/
def generate_with_callback (providersKeys : List String) (tmpl : List TemplatePiece)
    (hasOnUpdate : Bool) (model_name : String) (cfg : AIModelConfig)
    (run : BackendRun) : TaskResult :=
  if providersKeys.contains cfg.provider then
    let inter :=
      if hasOnUpdate then
        (throttleChunks run.startUs run.chunks).map (fun p => (model_name, p.2))
      else []
    match run.outcome with
    | .success html =>
      { result := (model_name, html)
        updates := inter ++ (if hasOnUpdate then [(model_name, html)] else []) }
    | .failure err =>
      let html := error_html tmpl model_name err
      { result := (model_name, html)
        updates := inter ++ (if hasOnUpdate then [(model_name, html)] else []) }
  else
    let html := error_html tmpl model_name ("Provider " ++ cfg.provider ++ " not found")
    { result := (model_name, html)
      updates := if hasOnUpdate then [(model_name, html)] else [] }

/-- Method `AIManager.generate_all` (manager.py:36-135), result value.  Tasks are
created for the enabled models only (manager.py:131), `asyncio.gather` waits
for every task and yields their `(name, html)` pairs in task order, and the
pairs are collected with `dict(results)`.  The semaphore wrapper
`generate_limited` only schedules the same task body, so the returned value
is independent of `max_concurrent`; the concurrency discipline itself is
modelled separately below.  `runs i` is the backend oracle of the `i`-th
enabled model. -/
def generate_all (providersKeys : List String) (tmpl : List TemplatePiece)
    (s : Settings) (hasOnUpdate : Bool) (runs : Nat → BackendRun) :
    List (String × String) :=
  let enabled := s.ai_models.filter (fun m => m.enabled)
  pyDict (enabled.enum.map (fun im =>
    (generate_with_callback providersKeys tmpl hasOnUpdate im.2.name im.2 (runs im.1)).result))

/-! ## Concurrency discipline of `generate_all` (manager.py:116-132)

The per-worker tasks run on one cooperative event loop.  With
`settings.ai.max_concurrent > 0` each task body is wrapped in
`async with semaphore` around an `asyncio.Semaphore(max_concurrent)`:
entering the backend call requires the semaphore counter to be positive and
decrements it; leaving increments it.  With the limit `0` the task body runs
unwrapped and may start at any time.  The transition system below is the
embedding of that scheduling discipline. -/

/-- Phase of one worker task within `generate_all`. -/
inductive TaskPhase where
  | waiting
  | running
  | done
  deriving Repr, DecidableEq

/-- Scheduler state of one `generate_all` call: the phase of each spawned
task and the semaphore counter. -/
structure ConcState where
  phases : List TaskPhase
  sem : Nat
  deriving Repr, DecidableEq

/-- Initial scheduler state: all tasks created by `asyncio.gather` are
pending and the semaphore (when used) holds the configured limit. -/
def ConcState.init (n : Nat) (s : Settings) : ConcState :=
  { phases := List.replicate n .waiting, sem := s.ai.max_concurrent }

/-- Number of tasks currently inside the backend call. -/
def ConcState.runningCount (c : ConcState) : Nat :=
  c.phases.count .running

/-- One cooperative scheduling step of `generate_all`:
* `acquire`: with a positive limit, a pending task enters the backend call
  only by acquiring the semaphore (counter must be positive, is decremented);
* `start`: with limit `0`, a pending task enters the backend call freely;
* `finish`: a running task completes; with a positive limit it releases the
  semaphore on leaving the `async with` block. -/
inductive ConcStep (s : Settings) : ConcState → ConcState → Prop where
  | acquire (c : ConcState) (i : Nat) :
      0 < s.ai.max_concurrent →
      0 < c.sem →
      c.phases.get? i = some .waiting →
      ConcStep s c { phases := c.phases.set i .running, sem := c.sem - 1 }
  | start (c : ConcState) (i : Nat) :
      s.ai.max_concurrent = 0 →
      c.phases.get? i = some .waiting →
      ConcStep s c { phases := c.phases.set i .running, sem := c.sem }
  | finish (c : ConcState) (i : Nat) :
      c.phases.get? i = some .running →
      ConcStep s c { phases := c.phases.set i .done,
                     sem := if 0 < s.ai.max_concurrent then c.sem + 1 else c.sem }

/-- States reachable during one `generate_all` call over `n` tasks. -/
inductive ConcReachable (s : Settings) (n : Nat) : ConcState → Prop where
  | init : ConcReachable s n (ConcState.init n s)
  | step (c c1 : ConcState) : ConcReachable s n c → ConcStep s c c1 → ConcReachable s n c1

/-! ## State cache (`aiweather/state/service.py`) -/

/-- The mutable fields of `StateService`.  `current_weather` holds the
decoded weather payload; decoding `json.loads` is abstracted away, so the
field carries the source JSON string (`none` before any data exists). -/
structure StateCache where
  current_weather : Option String
  current_visualizations : List (String × String)
  current_timestamp : Option String
  visualization_status : List (String × String)
  deriving Repr, DecidableEq

/-- The empty state `__init__` creates (service.py:30-34). -/
def StateCache.empty : StateCache :=
  { current_weather := none, current_visualizations := [],
    current_timestamp := none, visualization_status := [] }

/-- Method `StateService.update_timestamp`. -/
def StateCache.update_timestamp (st : StateCache) (ts : String) : StateCache :=
  { st with current_timestamp := some ts }

/-- Method `StateService.update_weather`. -/
def StateCache.update_weather (st : StateCache) (w : String) : StateCache :=
  { st with current_weather := some w }

/-- Method `StateService.update_visualization`:
`self.current_visualizations[model_name] = html`. -/
def StateCache.update_visualization (st : StateCache) (model_name html : String) : StateCache :=
  { st with current_visualizations := dictInsert st.current_visualizations model_name html }

/-- Method `StateService.mark_all_outdated` (defined in service.py:90-93; see the
scheduler theorems for whether it is ever invoked). -/
def StateCache.mark_all_outdated (st : StateCache) : StateCache :=
  { st with visualization_status := st.visualization_status.map (fun p => (p.1, "outdated")) }

/-- Method `StateService.mark_generating` (service.py:95-97). -/
def StateCache.mark_generating (st : StateCache) (model_name : String) : StateCache :=
  { st with visualization_status := dictInsert st.visualization_status model_name "generating" }

/-- Method `StateService.mark_up_to_date` (service.py:99-101). -/
def StateCache.mark_up_to_date (st : StateCache) (model_name : String) : StateCache :=
  { st with visualization_status := dictInsert st.visualization_status model_name "up_to_date" }

/-- Method `StateService.load_from_archive` (service.py:36-61).  `latestDir` is the
result of `ArchiveManager.find_latest_dir` (`none` when the archive is
empty); `metaTimestamp` is the timestamp string `_load_hour_data` extracts
from `metadata.json` (falling back to the directory name), abstracted as an
input.  On data, every field is replaced and the status map gets an
`up_to_date` entry exactly for each loaded visualization. -/
def load_from_archive (fs : FileSystem) (latestDir : Option String)
    (metaTimestamp : String) (models : List String) (st : StateCache) :
    StateCache × Bool :=
  match latestDir with
  | none => (st, false)
  | some dir =>
    let viz := load_visualizations fs dir models
    ({ current_timestamp := some metaTimestamp
       current_weather := fsRead fs (dir ++ "/weather.json")
       current_visualizations := viz
       visualization_status := viz.map (fun p => (p.1, "up_to_date")) }, true)

/-! ## Broadcast hub (`aiweather/websocket/server.py`) -/

/-- The wire message shapes built by `ConnectionManager.make_*_message`. -/
inductive Message where
  | config_info (prompt_template : String) (models : List String)
  | weather_data (timestamp : Option String) (weather : String)
  | visualization_update (model_name : String) (html : Option String)
      (raw_html : Option String) (status : String)
  deriving Repr, DecidableEq

/-- Method `ConnectionManager.make_config_info_message` (server.py:127-132). -/
def make_config_info_message (s : Settings) : Message :=
  .config_info s.prompt_template s.get_enabled_ai_model_names

/-- Method `ConnectionManager.make_weather_message` (server.py:134-142): `none`
when no weather is cached, otherwise the snapshot. -/
def make_weather_message (st : StateCache) : Option Message :=
  match st.current_weather with
  | none => none
  | some w => some (.weather_data st.current_timestamp w)

/-- Method `ConnectionManager.make_visualization_message` (server.py:144-160).
`normalize` is `HtmlNormalizer.normalize`, a total `str → str` function
(its strategy list ends in an identity fallback); the message's `html` is
the normalized `raw_html`, both `None` when nothing is cached for the
worker, and the status defaults to `"up_to_date"` when the worker has no
entry in the status map.  The Python return annotation is `Optional`, which
the `Option` result type mirrors. -/
def make_visualization_message (normalize : String → String) (st : StateCache)
    (model_name : String) : Option Message :=
  let raw_html := dictGet st.current_visualizations model_name
  let html := raw_html.map normalize
  let status := (dictGet st.visualization_status model_name).getD "up_to_date"
  some (.visualization_update model_name html raw_html status)

/-- Discriminator: is this a `config_info` message? -/
def Message.isConfigInfo : Message → Bool
  | .config_info _ _ => true
  | _ => false

/-- Discriminator: is this a `weather_data` message? -/
def Message.isWeatherData : Message → Bool
  | .weather_data _ _ => true
  | _ => false

/-- Discriminator: is this a `visualization_update` message? -/
def Message.isVisualizationUpdate : Message → Bool
  | .visualization_update _ _ _ _ => true
  | _ => false

/-- Method `ConnectionManager.send_to_client` (server.py:74-89), restricted to its
effect on the sequence of messages pushed down one connection: a `None`
message is skipped, anything else is sent. -/
def send_to_client (wire : List Message) (msg : Option Message) : List Message :=
  match msg with
  | none => wire
  | some m => wire ++ [m]

/-- Method `ConnectionManager.connect` (server.py:44-62): after accepting, push the
config-info message, then the weather snapshot (if cached), then one
visualization message per enabled model; the returned list is the message
sequence pushed before `handle` enters its read-only receive loop. -/
def connect (normalize : String → String) (s : Settings) (st : StateCache) :
    List Message :=
  let wire := send_to_client [] (some (make_config_info_message s))
  let wire := send_to_client wire (make_weather_message st)
  s.get_enabled_ai_model_names.foldl
    (fun w n => send_to_client w (make_visualization_message normalize st n)) wire

/-! ## Cycle scheduler (`aiweather/scheduler/jobs.py`) -/

/-- Method `WeatherScheduler.needs_refresh` (jobs.py:116-136): refresh when nothing
is cached, when the cached cycle is strictly older than one hour, or when
any enabled model's artifact is missing from the cached hour's directory. -/
def needs_refresh (currentTimestamp : Option PyDateTime) (now : PyDateTime)
    (base : String) (fs : FileSystem) (enabled : List String) : Bool :=
  match currentTimestamp with
  | none => true
  | some ts =>
    let ageUs := now.epochUs - ts.epochUs
    if 3600000000 < ageUs then true
    else if 0 < (get_missing_models base fs ts enabled).length then true
    else false

/-- The keyword parameters `AIManager.generate_all` accepts
(manager.py:36-40): `weather_json` and `on_update`. -/
def generate_all_keyword_params : List String :=
  ["weather_json", "on_update"]

/-- The keyword arguments `WeatherScheduler.refresh_weather` passes to
`generate_all` (jobs.py:107): `on_complete=on_visualization_complete`. -/
def refresh_call_keywords : List String :=
  ["on_complete"]

/-- Python call binding: the first keyword argument that matches no
parameter name (a `TypeError` is raised for it), `none` when all bind. -/
def unexpected_keyword (params kwargs : List String) : Option String :=
  (kwargs.filter (fun k => !params.contains k)).head?

/-- The body of the `on_visualization_complete` callback defined in
`refresh_weather` (jobs.py:100-104): persist the worker's html, update the
cache's visualization entry, and broadcast that worker's update. -/
def on_visualization_complete (normalize : String → String) (base : String)
    (timestamp : PyDateTime) (fs : FileSystem) (st : StateCache)
    (model_name html : String) : FileSystem × StateCache × List Message :=
  let fs1 := save_visualization base fs timestamp model_name html
  let st1 := st.update_visualization model_name html
  (fs1, st1, (make_visualization_message normalize st1 model_name).toList)

/-- Observable outcome of one `refresh_weather` run. -/
structure RefreshResult where
  state : StateCache
  fs : FileSystem
  broadcasts : List Message
  callback_calls : List (String × String)
  pyerror : Option String
  deriving Repr

/-- Method `WeatherScheduler.refresh_weather` (jobs.py:78-109), for a successful
weather fetch.  `timestamp` is `datetime.now()` truncated to the hour
(jobs.py:80); `weather_json` is the fetched payload.  The run persists
metadata and weather, updates the cache's timestamp and weather, broadcasts
the weather message and then one visualization message per enabled model
(without touching any status), and finally calls
`generate_all(weather_json, on_complete=...)`; the call's keyword arguments
are bound against `generate_all`'s parameters, so an unmatched keyword
raises `TypeError` there and propagates out of `refresh_weather` (caught
only by `try_refresh_weather`, jobs.py:71-76). -/
def refresh_weather (normalize : String → String) (providersKeys : List String)
    (tmpl : List TemplatePiece) (s : Settings) (base : String) (fs : FileSystem)
    (st : StateCache) (timestamp : PyDateTime) (weather_json : String)
    (runs : Nat → BackendRun) : RefreshResult :=
  let models := s.get_enabled_ai_model_names
  let fs1 := save_metadata base fs timestamp models s.prompt_template
  let fs2 := save_weather base fs1 timestamp weather_json
  let st1 := (st.update_timestamp timestamp.isoformat).update_weather weather_json
  let b1 := send_to_client [] (make_weather_message st1)
  let b2 := models.foldl
    (fun w n => send_to_client w (make_visualization_message normalize st1 n)) b1
  match unexpected_keyword generate_all_keyword_params refresh_call_keywords with
  | some kw =>
    { state := st1, fs := fs2, broadcasts := b2, callback_calls := []
      pyerror := some ("TypeError: generate_all got an unexpected keyword argument " ++ kw) }
  | none =>
    -- Unreachable at this call site; were the binding to succeed, no keyword
    -- would target `on_update`, which would keep its default `None`.
    let _ := generate_all providersKeys tmpl s false runs
    { state := st1, fs := fs2, broadcasts := b2, callback_calls := []
      pyerror := none }

/-! ## Helper lemmas -/

/-- Updating an existing key in place does not change the key list. -/
lemma map_fst_update (d : List (String × String)) (k v : String) :
    (d.map (fun p => if p.1 = k then (k, v) else p)).map Prod.fst = d.map Prod.fst := by
  induction d with
  | nil => rfl
  | cons a l ih =>
    by_cases h : a.1 = k <;> simp [h, ih]

/-- Key membership after a Python dict insertion. -/
lemma mem_map_fst_dictInsert (d : List (String × String)) (k v x : String) :
    x ∈ (dictInsert d k v).map Prod.fst ↔ x ∈ d.map Prod.fst ∨ x = k := by
  unfold dictInsert
  by_cases h : d.any (fun p => p.1 = k)
  · have hk : k ∈ d.map Prod.fst := by
      rcases List.any_eq_true.mp h with ⟨p, hp, he⟩
      exact List.mem_map.mpr ⟨p, hp, of_decide_eq_true he⟩
    simp only [h, if_true, map_fst_update]
    constructor
    · exact fun hx => Or.inl hx
    · rintro (hx | rfl)
      · exact hx
      · exact hk
  · simp [h]

/-- A dict insertion with a fresh key appends the pair. -/
lemma dictInsert_fresh (d : List (String × String)) (k v : String)
    (h : k ∉ d.map Prod.fst) : dictInsert d k v = d ++ [(k, v)] := by
  unfold dictInsert
  have : d.any (fun p => p.1 = k) = false := by
    rw [List.any_eq_false]
    intro p hp
    simp only [decide_eq_true_eq]
    intro he
    exact h (List.mem_map.mpr ⟨p, hp, he⟩)
  simp [this]

/-- Key membership of `dict(pairs)` is key membership of the pair list. -/
lemma mem_map_fst_pyDict_aux (l : List (String × String)) :
    ∀ (d : List (String × String)) (x : String),
      x ∈ ((l.foldl (fun d p => dictInsert d p.1 p.2) d).map Prod.fst) ↔
        x ∈ d.map Prod.fst ∨ x ∈ l.map Prod.fst := by
  induction l with
  | nil => simp
  | cons a l ih =>
    intro d x
    simp only [List.foldl_cons, List.map_cons, List.mem_cons]
    rw [ih, mem_map_fst_dictInsert]
    tauto

/-- Key membership of `dict(pairs)`. -/
lemma mem_map_fst_pyDict (l : List (String × String)) (x : String) :
    x ∈ (pyDict l).map Prod.fst ↔ x ∈ l.map Prod.fst := by
  unfold pyDict
  rw [mem_map_fst_pyDict_aux]
  simp

/-- When the pair list has pairwise-distinct keys, `dict(pairs)` keeps the
list unchanged. -/
lemma pyDict_of_nodup_aux (l : List (String × String)) :
    ∀ (d : List (String × String)),
      (l.map Prod.fst).Nodup →
      (∀ k, k ∈ l.map Prod.fst → k ∉ d.map Prod.fst) →
      l.foldl (fun d p => dictInsert d p.1 p.2) d = d ++ l := by
  induction l with
  | nil => simp
  | cons a l ih =>
    intro d hnd hdisj
    simp only [List.map_cons, List.nodup_cons] at hnd
    have ha : a.1 ∉ d.map Prod.fst := hdisj a.1 (by simp)
    simp only [List.foldl_cons]
    rw [dictInsert_fresh d a.1 a.2 ha]
    rw [ih (d ++ [(a.1, a.2)]) hnd.2]
    · simp
    · intro k hk
      simp only [List.map_append, List.mem_append, List.map_cons, List.map_nil,
        List.mem_singleton, not_or]
      refine ⟨hdisj k (by simp [hk]), ?_⟩
      intro he
      exact hnd.1 (he ▸ hk)

/-- Building `dict(pairs)` of a list with pairwise-distinct keys is the list itself. -/
lemma pyDict_of_nodup (l : List (String × String)) (h : (l.map Prod.fst).Nodup) :
    pyDict l = l := by
  unfold pyDict
  rw [pyDict_of_nodup_aux l [] h (by simp)]
  simp

/-- Inside a list that contains the key, the in-place update is found. -/
lemma find?_map_update (l : FileSystem) (p c : String)
    (h : l.any (fun q => q.1 = p) = true) :
    (l.map (fun q => if q.1 = p then (p, c) else q)).find? (fun q => decide (q.1 = p)) =
      some (p, c) := by
  induction l with
  | nil => simp at h
  | cons a l ih =>
    by_cases ha : a.1 = p
    · simp [ha, List.find?]
    · have h' : l.any (fun q => q.1 = p) = true := by
        simpa [List.any_cons, ha] using h
      simpa [ha, List.find?] using ih h'

/-- Appending a fresh pair puts it at the end, where `find?` reaches it. -/
lemma find?_append_fresh (l : FileSystem) (p c : String)
    (h : l.any (fun q => q.1 = p) = false) :
    (l ++ [(p, c)]).find? (fun q => decide (q.1 = p)) = some (p, c) := by
  induction l with
  | nil => simp [List.find?]
  | cons a l ih =>
    have ha : ¬ a.1 = p := by
      intro he
      simp [List.any_cons, he] at h
    have h' : l.any (fun q => q.1 = p) = false := by
      simpa [List.any_cons, ha] using h
    simpa [ha, List.find?] using ih h'

/-- Reading a just-written path returns the written content. -/
lemma fsRead_fsWrite_self (fs : FileSystem) (p c : String) :
    fsRead (fsWrite fs p c) p = some c := by
  unfold fsWrite fsRead
  by_cases h : fs.any (fun q => q.1 = p)
  · rw [if_pos h, find?_map_update fs p c h]
    rfl
  · have h' : fs.any (fun q => q.1 = p) = false := by
      rwa [Bool.not_eq_true] at h
    rw [if_neg h, find?_append_fresh fs p c h']
    rfl

/-- A path that does not exist reads as `none`. -/
lemma fsRead_eq_none (fs : FileSystem) (p : String) (h : fsExists fs p = false) :
    fsRead fs p = none := by
  unfold fsExists at h
  rw [List.any_eq_false] at h
  unfold fsRead
  rw [List.find?_eq_none.mpr]
  · rfl
  · intro q hq
    simpa using h q hq

/-- The double single-character replace of `get_model_filename` is the
simultaneous substitution of space and slash by underscore. -/
lemma get_model_filename_eq (m : String) :
    get_model_filename m =
      String.mk (m.data.map (fun c => if c = ' ' ∨ c = '/' then '_' else c)) ++ ".html" := by
  unfold get_model_filename pyReplaceChar
  have hdata : (String.mk (m.data.map (fun c => if c = ' ' then '_' else c))).data =
      m.data.map (fun c => if c = ' ' then '_' else c) := rfl
  rw [hdata, List.map_map]
  have hfun : ((fun c => if c = '/' then '_' else c) ∘ fun c => if c = ' ' then '_' else c) =
      (fun c : Char => if c = ' ' ∨ c = '/' then '_' else c) := by
    funext c
    simp only [Function.comp]
    by_cases h1 : c = ' '
    · subst h1
      rfl
    · by_cases h2 : c = '/'
      · subst h2
        rfl
      · simp [h1, h2]
  rw [hfun]

/-! ## C3 — the needs-refresh eligibility check -/

/-- C3: `needs_refresh` returns true iff no cycle timestamp is cached, or
the cached cycle's timestamp is more than one hour old, or at least one
enabled worker's output file is missing from the archive for the cached
hour; hence with all enabled worker files present and age at most one hour
it returns false, and with any worker file missing it returns true. -/
theorem needs_refresh_iff (cur : Option PyDateTime) (now : PyDateTime)
    (base : String) (fs : FileSystem) (enabled : List String) :
    needs_refresh cur now base fs enabled = true ↔
      cur = none ∨
        ∃ ts, cur = some ts ∧
          (3600000000 < now.epochUs - ts.epochUs ∨
           ∃ m ∈ enabled,
             fsExists fs (get_hourly_dir base ts ++ "/" ++ get_model_filename m) = false) := by
  cases cur with
  | none => simp [needs_refresh]
  | some ts =>
    have hmiss : 0 < (get_missing_models base fs ts enabled).length ↔
        ∃ m ∈ enabled,
          fsExists fs (get_hourly_dir base ts ++ "/" ++ get_model_filename m) = false := by
      rw [List.length_pos]
      unfold get_missing_models
      constructor
      · intro hne
        rcases List.exists_mem_of_ne_nil _ hne with ⟨m, hm⟩
        rcases List.mem_filter.mp hm with ⟨hmem, hpred⟩
        exact ⟨m, hmem, by simpa using hpred⟩
      · rintro ⟨m, hmem, hpred⟩
        intro hnil
        have : m ∈ enabled.filter
            (fun m => !(fsExists fs (get_hourly_dir base ts ++ "/" ++ get_model_filename m))) :=
          List.mem_filter.mpr ⟨hmem, by simp [hpred]⟩
        simp [hnil] at this
    constructor
    · intro h
      refine Or.inr ⟨ts, rfl, ?_⟩
      by_cases hage : 3600000000 < now.epochUs - ts.epochUs
      · exact Or.inl hage
      · refine Or.inr ?_
        rw [← hmiss]
        by_contra hlen
        simp [needs_refresh, hage, hlen] at h
    · rintro (h | ⟨ts', hts, h⟩)
      · exact absurd h (by simp)
      · obtain rfl : ts = ts' := by
          injection hts with h'
        rcases h with hage | hm
        · simp [needs_refresh, hage]
        · by_cases hage : 3600000000 < now.epochUs - ts.epochUs
          · simp [needs_refresh, hage]
          · simp [needs_refresh, hage, hmiss.mpr hm]

/-! ## C8 — archive directory layout and file naming -/

/-- C8 counterexample: the raw external payload is not stored in a file
named `rawdata.json`; at timestamp 2024-05-07 09:00 the payload lands in
`<root>/2024-05/07-09/weather.json` and no `rawdata.json` file exists. -/
theorem rawdata_filename_counterexample :
    fsExists (save_weather "data" [] ⟨2024, 5, 7, 9, 0⟩ "PAYLOAD")
        "data/2024-05/07-09/rawdata.json" = false ∧
      fsRead (save_weather "data" [] ⟨2024, 5, 7, 9, 0⟩ "PAYLOAD")
        "data/2024-05/07-09/weather.json" = some "PAYLOAD" := by
  constructor <;> rfl

/-- C8 amended: for every cycle timestamp the archive's hourly directory is
`<root>/<YYYY-MM>/<DD-HH>/`; within it the raw external payload is stored
verbatim in a file named `weather.json` (not `rawdata.json`), and each
worker's output is stored in a file named by the worker's display name with
every space and `/` replaced by `_`, followed by `.html`. -/
theorem archive_layout (base : String) (fs : FileSystem) (t : PyDateTime)
    (payload model html : String) :
    fsRead (save_weather base fs t payload)
        (base ++ "/" ++ pad4 t.year ++ "-" ++ pad2 t.month ++ "/" ++
          pad2 t.day ++ "-" ++ pad2 t.hour ++ "/weather.json") = some payload ∧
      fsRead (save_visualization base fs t model html)
        (base ++ "/" ++ pad4 t.year ++ "-" ++ pad2 t.month ++ "/" ++
          pad2 t.day ++ "-" ++ pad2 t.hour ++ "/" ++
          (String.mk (model.data.map (fun c => if c = ' ' ∨ c = '/' then '_' else c)) ++
            ".html")) = some html := by
  constructor
  · exact fsRead_fsWrite_self fs _ payload
  · rw [← get_model_filename_eq]
    exact fsRead_fsWrite_self fs _ html

/-! ## C9 — initial message sequence on connect -/

/-- Pushing one visualization message per name appends exactly one message
per name, in order. -/
lemma foldl_send_viz (normalize : String → String) (st : StateCache)
    (names : List String) :
    ∀ wire : List Message,
      names.foldl (fun w n => send_to_client w (make_visualization_message normalize st n)) wire =
        wire ++ names.map (fun n =>
          Message.visualization_update n
            ((dictGet st.current_visualizations n).map normalize)
            (dictGet st.current_visualizations n)
            ((dictGet st.visualization_status n).getD "up_to_date")) := by
  induction names with
  | nil => intro wire; simp
  | cons n ns ih =>
    intro wire
    simp only [List.foldl_cons, List.map_cons]
    rw [show send_to_client wire (make_visualization_message normalize st n) =
          wire ++ [Message.visualization_update n
            ((dictGet st.current_visualizations n).map normalize)
            (dictGet st.current_visualizations n)
            ((dictGet st.visualization_status n).getD "up_to_date")] from rfl]
    rw [ih]
    simp

/-- C9: on acceptance of a new observer connection the hub sends, in order,
exactly one `config_info` message, then exactly one `weather_data` message
iff weather data is cached (none otherwise), then exactly one
`visualization_update` message per enabled worker, before the connection
enters its read-only listening state. -/
theorem connect_message_sequence (normalize : String → String) (s : Settings)
    (st : StateCache) :
    connect normalize s st =
      make_config_info_message s ::
        ((make_weather_message st).toList ++
          s.get_enabled_ai_model_names.map (fun n =>
            Message.visualization_update n
              ((dictGet st.current_visualizations n).map normalize)
              (dictGet st.current_visualizations n)
              ((dictGet st.visualization_status n).getD "up_to_date"))) ∧
      (connect normalize s st).countP (fun m => m.isConfigInfo) = 1 ∧
      (connect normalize s st).countP (fun m => m.isWeatherData) =
        (if st.current_weather.isSome then 1 else 0) ∧
      (connect normalize s st).countP (fun m => m.isVisualizationUpdate) =
        s.get_enabled_ai_model_names.length := by
  have heq : connect normalize s st =
      make_config_info_message s ::
        ((make_weather_message st).toList ++
          s.get_enabled_ai_model_names.map (fun n =>
            Message.visualization_update n
              ((dictGet st.current_visualizations n).map normalize)
              (dictGet st.current_visualizations n)
              ((dictGet st.visualization_status n).getD "up_to_date"))) := by
    unfold connect
    rw [foldl_send_viz]
    cases hw : st.current_weather with
    | none => simp [send_to_client, make_weather_message, hw]
    | some w => simp [send_to_client, make_weather_message, hw]
  refine ⟨heq, ?_, ?_, ?_⟩ <;> rw [heq] <;>
    cases hw : st.current_weather <;>
      simp [make_weather_message, hw, make_config_info_message, List.countP_cons,
        List.countP_append, List.countP_map, Message.isConfigInfo,
        Message.isWeatherData, Message.isVisualizationUpdate, Function.comp,
        List.countP_true]

/-! ## C10 — visualization messages for never-generated workers -/

/-- The status map built from the loaded visualizations has the same keys. -/
lemma dictGet_map_up_to_date (l : List (String × String)) (k : String) :
    dictGet (l.map (fun p => (p.1, "up_to_date"))) k =
      (dictGet l k).map (fun _ => "up_to_date") := by
  induction l with
  | nil => rfl
  | cons a l ih =>
    by_cases ha : a.1 = k
    · unfold dictGet
      rw [List.map_cons, List.find?_cons_of_pos _ (by simpa using ha),
        List.find?_cons_of_pos _ (by simpa using ha)]
      rfl
    · unfold dictGet at ih ⊢
      rw [List.map_cons, List.find?_cons_of_neg _ (by simpa using ha),
        List.find?_cons_of_neg _ (by simpa using ha)]
      exact ih

/-- A worker whose artifact cannot be read does not appear among the loaded
visualizations. -/
lemma dictGet_load_visualizations_none (fs : FileSystem) (dir : String)
    (models : List String) (name : String)
    (h : fsRead fs (dir ++ "/" ++ get_model_filename name) = none) :
    dictGet (load_visualizations fs dir models) name = none := by
  induction models with
  | nil => rfl
  | cons m ms ih =>
    unfold load_visualizations at ih ⊢
    cases hr : fsRead fs (dir ++ "/" ++ get_model_filename m) with
    | none =>
      rw [List.filterMap_cons_none (by simp [hr])]
      exact ih
    | some c =>
      rw [List.filterMap_cons_some (b := (m, c)) (by simp [hr])]
      by_cases hm : m = name
      · subst hm
        rw [h] at hr
        exact absurd hr (by simp)
      · unfold dictGet at ih ⊢
        rw [List.find?_cons_of_neg _ (by simp [hm])]
        exact ih

/-- C10: `make_visualization_message` never returns `None`; a worker name
with no entry in the status map is reported as `up_to_date`; and a worker
for which `load_from_archive` found no artifact is presented to observers
with `html` and `raw_html` both null and status `up_to_date`, not
`outdated`. -/
theorem visualization_message_total (normalize : String → String) (st : StateCache)
    (name : String) (fs : FileSystem) (dir metaTs : String) (models : List String)
    (st0 : StateCache)
    (hmiss : fsExists fs (dir ++ "/" ++ get_model_filename name) = false) :
    (make_visualization_message normalize st name).isSome = true ∧
      (dictGet st.visualization_status name = none →
        make_visualization_message normalize st name =
          some (.visualization_update name
            ((dictGet st.current_visualizations name).map normalize)
            (dictGet st.current_visualizations name) "up_to_date")) ∧
      make_visualization_message normalize
          ((load_from_archive fs (some dir) metaTs models st0).1) name =
        some (.visualization_update name none none "up_to_date") := by
  refine ⟨rfl, ?_, ?_⟩
  · intro h
    unfold make_visualization_message
    rw [h]
    rfl
  · have hread : fsRead fs (dir ++ "/" ++ get_model_filename name) = none :=
      fsRead_eq_none fs _ hmiss
    have hviz : dictGet (load_visualizations fs dir models) name = none :=
      dictGet_load_visualizations_none fs dir models name hread
    unfold make_visualization_message load_from_archive
    simp only
    rw [dictGet_map_up_to_date, hviz]
    rfl

/-- C10 witness: an empty archive directory with one expected worker `A`. -/
theorem visualization_message_total_witness :
    fsExists [] ("d" ++ "/" ++ get_model_filename "A") = false ∧
      make_visualization_message id
          ((load_from_archive [] (some "d") "t" ["A"] StateCache.empty).1) "A" =
        some (.visualization_update "A" none none "up_to_date") :=
  ⟨rfl, (visualization_message_total id StateCache.empty "A" [] "d" "t" ["A"]
    StateCache.empty rfl).2.2⟩

/-! ## C2 — the scheduler/orchestrator callback wiring -/

/-- C2 (code bug): every refresh cycle dies at the orchestrator call.
jobs.py:107 passes the completion callback as `on_complete=...`, but
`generate_all`'s parameter (manager.py:39) is named `on_update`, so Python
keyword binding raises `TypeError`; the per-worker completion callback is
never invoked, and no per-worker persistence, cache update or broadcast
happens during the generation phase. -/
theorem refresh_weather_typeerror (normalize : String → String)
    (providersKeys : List String) (tmpl : List TemplatePiece) (s : Settings)
    (base : String) (fs : FileSystem) (st : StateCache) (timestamp : PyDateTime)
    (weather_json : String) (runs : Nat → BackendRun) :
    (refresh_weather normalize providersKeys tmpl s base fs st timestamp
        weather_json runs).pyerror =
      some "TypeError: generate_all got an unexpected keyword argument on_complete" ∧
      (refresh_weather normalize providersKeys tmpl s base fs st timestamp
        weather_json runs).callback_calls = [] := by
  exact ⟨rfl, rfl⟩

/-! ## C5 — worker status lifecycle -/

/-- C5 counterexample: one enabled worker `A`, loaded from the archive with
status `up_to_date`.  During the refresh cycle `A` is never marked
`generating`: after the cycle-start broadcasts its cached status is still
`up_to_date`, and the broadcast visualization message for `A` carries
status `up_to_date`, not `generating`. -/
theorem no_generating_transition_counterexample :
    (refresh_weather id ["ollama"] [] ⟨[⟨"A", "ollama", "m", 10, true⟩], ⟨0⟩, "P"⟩
        "data" [] ⟨some "W", [("A", "H")], some "TS", [("A", "up_to_date")]⟩
        ⟨2024, 5, 7, 9, 0⟩ "WJ"
        (fun _ => ⟨0, [], .success "X"⟩)).state.visualization_status =
      [("A", "up_to_date")] ∧
      (refresh_weather id ["ollama"] [] ⟨[⟨"A", "ollama", "m", 10, true⟩], ⟨0⟩, "P"⟩
        "data" [] ⟨some "W", [("A", "H")], some "TS", [("A", "up_to_date")]⟩
        ⟨2024, 5, 7, 9, 0⟩ "WJ"
        (fun _ => ⟨0, [], .success "X"⟩)).broadcasts =
      [.weather_data (some "2024-05-07T09:00:00") "WJ",
       .visualization_update "A" (some "H") (some "H") "up_to_date"] := by
  exact ⟨rfl, rfl⟩

/-- C5 amended: after a cycle loads from the archive, exactly the workers
whose artifacts were found have status entries, all `up_to_date`; the
refresh cycle broadcasts each enabled worker's visualization at cycle start
without changing any status (`mark_generating` is never invoked), and the
completion callback updates the worker's output but not its status. -/
theorem status_untouched_by_refresh (normalize : String → String)
    (providersKeys : List String) (tmpl : List TemplatePiece) (s : Settings)
    (base : String) (fs fs0 : FileSystem) (st st0 : StateCache)
    (timestamp : PyDateTime) (weather_json : String) (runs : Nat → BackendRun)
    (dir metaTs : String) (models : List String) (model_name html : String) :
    (load_from_archive fs0 (some dir) metaTs models st0).1.visualization_status =
      (load_visualizations fs0 dir models).map (fun p => (p.1, "up_to_date")) ∧
      (refresh_weather normalize providersKeys tmpl s base fs st timestamp
        weather_json runs).state.visualization_status = st.visualization_status ∧
      (on_visualization_complete normalize base timestamp fs st model_name
        html).2.1.visualization_status = st.visualization_status := by
  exact ⟨rfl, rfl, rfl⟩

/-! ## C1 — completeness of the orchestrator's result mapping -/

/-- Every branch of the task body returns a pair keyed by the model name. -/
lemma generate_with_callback_result_fst (pk : List String)
    (tmpl : List TemplatePiece) (hU : Bool) (name : String)
    (cfg : AIModelConfig) (run : BackendRun) :
    (generate_with_callback pk tmpl hU name cfg run).result.1 = name := by
  unfold generate_with_callback
  split
  · cases run.outcome <;> rfl
  · rfl

/-- The pre-`dict` result list of `generate_all` is keyed exactly by the
enabled model names, in configuration order. -/
lemma generate_all_results_map_fst (pk : List String) (tmpl : List TemplatePiece)
    (s : Settings) (hU : Bool) (runs : Nat → BackendRun) :
    ((s.ai_models.filter (fun m => m.enabled)).enum.map (fun im =>
        (generate_with_callback pk tmpl hU im.2.name im.2 (runs im.1)).result)).map
        Prod.fst =
      s.get_enabled_ai_model_names := by
  unfold Settings.get_enabled_ai_model_names
  rw [List.map_map]
  have h1 : (Prod.fst ∘ fun im : Nat × AIModelConfig =>
      (generate_with_callback pk tmpl hU im.2.name im.2 (runs im.1)).result) =
      ((fun m : AIModelConfig => m.name) ∘ Prod.snd) := by
    funext im
    exact generate_with_callback_result_fst pk tmpl hU im.2.name im.2 (runs im.1)
  rw [h1, ← List.map_map, List.enum_map_snd]

/-- C1 counterexample: two enabled models sharing the display name `A` are
collapsed by `dict(results)` into a single entry, so `generate_all` returns
1 entry for 2 enabled models. -/
theorem generate_all_duplicate_names_counterexample :
    (generate_all ["ollama"] []
        ⟨[⟨"A", "ollama", "m1", 10, true⟩, ⟨"A", "ollama", "m2", 10, true⟩], ⟨0⟩, "P"⟩
        true (fun _ => ⟨0, [], .success "X"⟩)).length = 1 ∧
      (Settings.get_enabled_ai_model_names
        ⟨[⟨"A", "ollama", "m1", 10, true⟩, ⟨"A", "ollama", "m2", 10, true⟩], ⟨0⟩,
          "P"⟩).length = 2 := by
  exact ⟨rfl, rfl⟩

/-- C1 amended: `generate_all` returns a mapping whose key set is exactly
the set of enabled model names (disabled models never appear), regardless
of how many workers fail or time out; when the enabled names are pairwise
distinct — the intended configuration — it has exactly one entry per
enabled model, namely that model's task result, and the mapping is
assembled only from the terminal results of all enabled workers' tasks. -/
theorem generate_all_keyset (pk : List String) (tmpl : List TemplatePiece)
    (s : Settings) (hU : Bool) (runs : Nat → BackendRun) :
    (∀ n, n ∈ (generate_all pk tmpl s hU runs).map Prod.fst ↔
        n ∈ s.get_enabled_ai_model_names) ∧
      (s.get_enabled_ai_model_names.Nodup →
        generate_all pk tmpl s hU runs =
          (s.ai_models.filter (fun m => m.enabled)).enum.map (fun im =>
            (im.2.name,
              (generate_with_callback pk tmpl hU im.2.name im.2 (runs im.1)).result.2))) := by
  constructor
  · intro n
    unfold generate_all
    rw [mem_map_fst_pyDict]
    rw [generate_all_results_map_fst]
  · intro hnd
    unfold generate_all
    rw [pyDict_of_nodup _ (by rw [generate_all_results_map_fst]; exact hnd)]
    refine List.map_congr_left ?_
    intro im _
    exact Prod.ext (generate_with_callback_result_fst pk tmpl hU im.2.name im.2 (runs im.1)) rfl

/-- C1 witness: two enabled models with distinct names `A`, `B`. -/
theorem generate_all_keyset_witness :
    generate_all ["ollama"] []
        ⟨[⟨"A", "ollama", "m1", 10, true⟩, ⟨"B", "ollama", "m2", 10, true⟩], ⟨0⟩, "P"⟩
        true (fun _ => ⟨0, [], .success "X"⟩) =
      (([⟨"A", "ollama", "m1", 10, true⟩, ⟨"B", "ollama", "m2", 10, true⟩] :
          List AIModelConfig).filter (fun m => m.enabled)).enum.map (fun im =>
        (im.2.name,
          (generate_with_callback ["ollama"] [] true im.2.name im.2
            ((fun _ => ⟨0, [], .success "X"⟩) im.1)).result.2)) :=
  (generate_all_keyset ["ollama"] []
    ⟨[⟨"A", "ollama", "m1", 10, true⟩, ⟨"B", "ollama", "m2", 10, true⟩], ⟨0⟩, "P"⟩
    true (fun _ => ⟨0, [], .success "X"⟩)).2 (by decide)

/-! ## C7 — per-worker failure containment -/

/-- Key lists after a dict insertion depend only on the prior key list. -/
lemma map_fst_dictInsert_eq (d : List (String × String)) (k v : String) :
    (dictInsert d k v).map Prod.fst =
      if (d.map Prod.fst).any (fun x => x = k) then d.map Prod.fst
      else d.map Prod.fst ++ [k] := by
  have hc : (d.map Prod.fst).any (fun x => x = k) = d.any (fun p => p.1 = k) := by
    induction d with
    | nil => rfl
    | cons a l ih => simp [List.any_cons, ih]
  rw [hc]
  unfold dictInsert
  by_cases h : d.any (fun p => p.1 = k)
  · rw [if_pos h, if_pos h, map_fst_update]
  · rw [if_neg h, if_neg h]
    simp

/-- The key list of `dict(pairs)` depends only on the keys of the input. -/
lemma map_fst_pyDict_congr (l₁ l₂ : List (String × String))
    (h : l₁.map Prod.fst = l₂.map Prod.fst) :
    (pyDict l₁).map Prod.fst = (pyDict l₂).map Prod.fst := by
  unfold pyDict
  suffices H : ∀ (l₁ : List (String × String)) (l₂ d₁ d₂ : List (String × String)),
      l₁.map Prod.fst = l₂.map Prod.fst →
      d₁.map Prod.fst = d₂.map Prod.fst →
      (l₁.foldl (fun d p => dictInsert d p.1 p.2) d₁).map Prod.fst =
        (l₂.foldl (fun d p => dictInsert d p.1 p.2) d₂).map Prod.fst by
    exact H l₁ l₂ [] [] h rfl
  intro l₁
  induction l₁ with
  | nil =>
    intro l₂ d₁ d₂ h hd
    cases l₂ with
    | nil => simpa using hd
    | cons b l₂' => simp at h
  | cons a l ih =>
    intro l₂ d₁ d₂ h hd
    cases l₂ with
    | nil => simp at h
    | cons b l₂' =>
      simp only [List.map_cons, List.cons.injEq] at h
      simp only [List.foldl_cons]
      apply ih
      · exact h.2
      · rw [map_fst_dictInsert_eq, map_fst_dictInsert_eq, hd, h.1]

/-- C7: a worker failure (timeout, backend error, or unknown provider) is
caught at the task boundary: the task still returns an ordinary result,
namely the error template rendered with the worker's name and the failure
description; that degraded output is forwarded to `on_update` exactly once
(after any earlier throttled progress forwards); and the key set of
`generate_all`'s result is unaffected by outcomes — no sibling worker and
no cycle is aborted. -/
theorem worker_failure_degraded (pk : List String) (tmpl : List TemplatePiece)
    (name : String) (cfg : AIModelConfig) (run : BackendRun) (err : String)
    (hfail : run.outcome = .failure err) :
    (pk.contains cfg.provider = true →
      (generate_with_callback pk tmpl true name cfg run).result =
        (name, error_html tmpl name err) ∧
      (generate_with_callback pk tmpl true name cfg run).updates =
        (throttleChunks run.startUs run.chunks).map (fun p => (name, p.2)) ++
          [(name, error_html tmpl name err)]) ∧
      (pk.contains cfg.provider = false →
        (generate_with_callback pk tmpl true name cfg run).result =
          (name, error_html tmpl name ("Provider " ++ cfg.provider ++ " not found")) ∧
        (generate_with_callback pk tmpl true name cfg run).updates =
          [(name, error_html tmpl name ("Provider " ++ cfg.provider ++ " not found"))]) ∧
      (∀ (s : Settings) (hU hU2 : Bool) (runs runs2 : Nat → BackendRun),
        (generate_all pk tmpl s hU runs).map Prod.fst =
          (generate_all pk tmpl s hU2 runs2).map Prod.fst) := by
  refine ⟨?_, ?_, ?_⟩
  · intro h
    unfold generate_with_callback
    rw [if_pos h, hfail]
    exact ⟨rfl, rfl⟩
  · intro h
    unfold generate_with_callback
    rw [if_neg (by rw [h]; simp)]
    exact ⟨rfl, rfl⟩
  · intro s hU hU2 runs runs2
    unfold generate_all
    apply map_fst_pyDict_congr
    rw [generate_all_results_map_fst, generate_all_results_map_fst]

/-- C7 witness: a worker whose backend fails with `boom` under a known
provider. -/
theorem worker_failure_degraded_witness :
    (generate_with_callback ["ollama"] [.modelName, .errorText] true "A"
        ⟨"A", "ollama", "m", 10, true⟩ ⟨0, [], .failure "boom"⟩).result =
      ("A", error_html [.modelName, .errorText] "A" "boom") :=
  ((worker_failure_degraded ["ollama"] [.modelName, .errorText] "A"
    ⟨"A", "ollama", "m", 10, true⟩ ⟨0, [], .failure "boom"⟩ "boom" rfl).1 (by decide)).1

/-! ## C6 — throttling of progress callbacks -/

/-- The forwarded chunks are a sublist of the stream. -/
lemma throttleChunks_sublist (l : List (Nat × String)) :
    ∀ last, (throttleChunks last l).Sublist l := by
  induction l with
  | nil =>
    intro last
    simp [throttleChunks]
  | cons a l ih =>
    intro last
    obtain ⟨t, hh⟩ := a
    by_cases hcond : 5 ≤ tdSeconds (t - last)
    · simp only [throttleChunks, hcond, if_true]
      exact (ih t).cons₂ _
    · simp only [throttleChunks, hcond, if_false]
      exact (ih last).cons _

/-- A lower bound on the head of a `≤`-chain propagates. -/
lemma chain_le_of_le {a b : Nat} (l : List Nat) (hab : a ≤ b)
    (h : List.Chain (· ≤ ·) b l) : List.Chain (· ≤ ·) a l := by
  cases l with
  | nil => exact List.Chain.nil
  | cons x xs =>
    cases h with
    | cons hbx hxs => exact List.Chain.cons (le_trans hab hbx) hxs

/-- With non-decreasing arrival instants, every forwarded chunk arrives at
least five wall-clock seconds after the previous forward, and at least five
seconds after `last_update` was initialized. -/
lemma throttle_gaps (l : List (Nat × String)) :
    ∀ last, List.Chain (· ≤ ·) last (l.map Prod.fst) →
      (∀ x ∈ throttleChunks last l, last + 5000000 ≤ x.1) ∧
      List.Chain' (fun a b => a + 5000000 ≤ b) ((throttleChunks last l).map Prod.fst) := by
  induction l with
  | nil =>
    intro last _
    constructor
    · intro x hx
      simp [throttleChunks] at hx
    · simp [throttleChunks]
  | cons a l ih =>
    intro last hch
    obtain ⟨t, hh⟩ := a
    simp only [List.map_cons] at hch
    cases hch with
    | cons hlt hrest =>
      by_cases hcond : 5 ≤ tdSeconds (t - last)
      · have hcond' : 5 ≤ (t - last) / 1000000 % 86400 := hcond
        have hgap : last + 5000000 ≤ t := by
          have h1 : (t - last) / 1000000 % 86400 ≤ (t - last) / 1000000 :=
            Nat.mod_le _ _
          have h2 : 5 ≤ (t - last) / 1000000 := le_trans hcond' h1
          have h3 : 5 * 1000000 ≤ t - last := by
            have hd : (t - last) / 1000000 * 1000000 ≤ t - last :=
              Nat.div_mul_le_self _ _
            have hm : 5 * 1000000 ≤ (t - last) / 1000000 * 1000000 :=
              Nat.mul_le_mul_right _ h2
            omega
          omega
        obtain ⟨hall, hchain⟩ := ih t hrest
        constructor
        · intro x hx
          simp only [throttleChunks, hcond, if_true, List.mem_cons] at hx
          rcases hx with rfl | hx
          · exact hgap
          · have := hall x hx
            omega
        · simp only [throttleChunks, hcond, if_true, List.map_cons]
          rw [List.chain'_cons']
          refine ⟨?_, hchain⟩
          intro y hy
          have hy' := List.mem_of_mem_head? hy
          rcases List.mem_map.mp hy' with ⟨x, hx, rfl⟩
          exact hall x hx
      · have hch' : List.Chain (· ≤ ·) last (l.map Prod.fst) :=
          chain_le_of_le _ hlt hrest
        obtain ⟨hall, hchain⟩ := ih last hch'
        constructor
        · intro x hx
          simp only [throttleChunks, hcond, if_false] at hx
          exact hall x hx
        · simp only [throttleChunks, hcond, if_false]
          exact hchain

/-- In a chain with gaps of at least `I`, the head lower-bounds the tail. -/
lemma chain_gap_head_lb (I : Nat) :
    ∀ (u : Nat) (l : List Nat),
      List.Chain' (fun a b => a + I ≤ b) (u :: l) → ∀ x ∈ l, u + I ≤ x := by
  intro u l
  induction l generalizing u with
  | nil =>
    intro _ x hx
    simp at hx
  | cons v l' ih =>
    intro hch x hx
    have huv : u + I ≤ v := (List.chain'_cons.mp hch).1
    rcases List.mem_cons.mp hx with rfl | hx'
    · exact huv
    · have hvx := ih v (List.chain'_cons.mp hch).2 x hx'
      omega

/-- A list of instants inside `[lo, hi]` whose consecutive gaps are at
least `I` has at most `(hi - lo) / I + 1` elements. -/
lemma chain_gap_length_le (I : Nat) (hI : 0 < I) :
    ∀ (ts : List Nat) (lo hi : Nat),
      List.Chain' (fun a b => a + I ≤ b) ts →
      (∀ t ∈ ts, lo ≤ t ∧ t ≤ hi) →
      ts.length ≤ (hi - lo) / I + 1 := by
  intro ts
  induction ts with
  | nil =>
    intro lo hi _ _
    simp
  | cons t rest ih =>
    intro lo hi hch hbound
    cases rest with
    | nil => simp
    | cons u rest' =>
      have hch' : List.Chain' (fun a b => a + I ≤ b) (u :: rest') :=
        (List.chain'_cons.mp hch).2
      have htu : t + I ≤ u := (List.chain'_cons.mp hch).1
      have hlb : ∀ x ∈ u :: rest', t + I ≤ x := chain_gap_head_lb I t (u :: rest') hch
      have hb' : ∀ x ∈ u :: rest', t + I ≤ x ∧ x ≤ hi := fun x hx =>
        ⟨hlb x hx, (hbound x (List.mem_cons_of_mem t hx)).2⟩
      have hlen := ih (t + I) hi hch' hb'
      have hhi : t + I ≤ hi := le_trans htu (hbound u (by simp)).2
      have hlo : lo ≤ t := (hbound t (by simp)).1
      have key : (hi - (t + I)) / I + 1 ≤ (hi - lo) / I := by
        have h1 : hi - (t + I) ≤ (hi - lo) - I := by omega
        have h2 : (hi - (t + I)) / I ≤ ((hi - lo) - I) / I := Nat.div_le_div_right h1
        have h3 : I ≤ hi - lo := by omega
        have h4 : (hi - lo) / I = ((hi - lo) - I) / I + 1 := Nat.div_eq_sub_div hI h3
        omega
      simp only [List.length_cons] at hlen ⊢
      omega

/-- C6: intermediate progress forwards are throttled — each forwarded chunk
arrives at least 5 wall-clock seconds after the previous one, so a window
of `W` microseconds contains at most `W / 5000000 + 1` intermediate
forwards — and on success the final output is additionally forwarded to
`on_update` exactly once, unconditionally. -/
theorem throttle_correctness (pk : List String) (tmpl : List TemplatePiece)
    (name : String) (cfg : AIModelConfig) (run : BackendRun) (html : String)
    (w0 W : Nat)
    (hprov : pk.contains cfg.provider = true)
    (hsucc : run.outcome = .success html)
    (hchain : List.Chain (· ≤ ·) run.startUs (run.chunks.map Prod.fst))
    (hwin : ∀ c ∈ run.chunks, w0 ≤ c.1 ∧ c.1 ≤ w0 + W) :
    (generate_with_callback pk tmpl true name cfg run).updates =
      (throttleChunks run.startUs run.chunks).map (fun p => (name, p.2)) ++
        [(name, html)] ∧
      List.Chain' (fun a b => a + 5000000 ≤ b)
        ((throttleChunks run.startUs run.chunks).map Prod.fst) ∧
      ((throttleChunks run.startUs run.chunks).map (fun p => (name, p.2))).length ≤
        W / 5000000 + 1 := by
  refine ⟨?_, ?_, ?_⟩
  · unfold generate_with_callback
    rw [if_pos hprov, hsucc]
    rfl
  · exact (throttle_gaps run.chunks run.startUs hchain).2
  · rw [List.length_map]
    have hsub := throttleChunks_sublist run.chunks run.startUs
    have hchain' := (throttle_gaps run.chunks run.startUs hchain).2
    have hlen := chain_gap_length_le 5000000 (by norm_num)
      ((throttleChunks run.startUs run.chunks).map Prod.fst) w0 (w0 + W) hchain'
      (by
        intro t ht
        rcases List.mem_map.mp ht with ⟨x, hx, rfl⟩
        exact hwin x (hsub.subset hx))
    rw [List.length_map] at hlen
    have : w0 + W - w0 = W := by omega
    rw [this] at hlen
    exact hlen

/-- C6 witness: two chunks, one inside the 5-second window (suppressed) and
one outside (forwarded), followed by the unconditional final forward. -/
theorem throttle_correctness_witness :
    (generate_with_callback ["ollama"] [] true "A" ⟨"A", "ollama", "m", 10, true⟩
        ⟨0, [(1000000, "a"), (6000000, "ab")], .success "FIN"⟩).updates =
      (throttleChunks 0 [(1000000, "a"), (6000000, "ab")]).map (fun p => ("A", p.2)) ++
        [("A", "FIN")] :=
  (throttle_correctness ["ollama"] [] "A" ⟨"A", "ollama", "m", 10, true⟩
    ⟨0, [(1000000, "a"), (6000000, "ab")], .success "FIN"⟩ "FIN" 0 6000000
    rfl rfl
    (List.Chain.cons (by norm_num) (List.Chain.cons (by norm_num) List.Chain.nil))
    (by decide)).1

/-! ## C4 — bounded concurrency via the semaphore -/

/-- Occurrence count after replacing the element at a valid index. -/
lemma count_set_of_get? (l : List TaskPhase) :
    ∀ (i : Nat) (a b c : TaskPhase), l.get? i = some a →
      (l.set i b).count c =
        l.count c + (if b = c then 1 else 0) - (if a = c then 1 else 0) := by
  induction l with
  | nil =>
    intro i a b c h
    simp at h
  | cons x xs ih =>
    intro i a b c h
    cases i with
    | zero =>
      simp only [List.get?] at h
      injection h with hxa
      subst hxa
      simp only [List.set, List.count_cons]
      by_cases hb : b = c <;> by_cases hx : x = c <;>
        simp [hb, hx, beq_iff_eq] <;> omega
    | succ j =>
      simp only [List.get?] at h
      have hmem : a ∈ xs := List.get?_mem h
      simp only [List.set, List.count_cons, ih j a b c h]
      by_cases ha : a = c
      · have h1 : 1 ≤ xs.count c := by
          rw [← ha]
          exact List.count_pos_iff.mpr hmem
        by_cases hb : b = c <;> by_cases hx : x = c <;>
          simp [hb, ha, hx, beq_iff_eq] <;> omega
      · by_cases hb : b = c <;> by_cases hx : x = c <;>
          simp [hb, ha, hx, beq_iff_eq] <;> omega

/-- Semaphore invariant of `generate_all` with a positive limit: the free
slots plus the tasks inside the backend call always equal the configured
limit. -/
lemma conc_invariant (s : Settings) (n : Nat) (c : ConcState)
    (h : ConcReachable s n c) (hl : 0 < s.ai.max_concurrent) :
    c.sem + c.runningCount = s.ai.max_concurrent := by
  induction h with
  | init =>
    unfold ConcState.init ConcState.runningCount
    simp [List.count_replicate]
  | step c c1 hreach hstep ih =>
    cases hstep with
    | acquire i hpos hsem hget =>
      have hc := count_set_of_get? c.phases i .waiting .running .running hget
      simp at hc
      unfold ConcState.runningCount at ih
      show c.sem - 1 + (c.phases.set i TaskPhase.running).count TaskPhase.running =
        s.ai.max_concurrent
      omega
    | start i h0 hget =>
      rw [h0] at hl
      exact absurd hl (lt_irrefl 0)
    | finish i hget =>
      have hc := count_set_of_get? c.phases i .running .done .running hget
      simp at hc
      have hmem : TaskPhase.running ∈ c.phases := List.get?_mem hget
      have hpos : 0 < c.phases.count .running := List.count_pos_iff.mpr hmem
      unfold ConcState.runningCount at ih
      show (if 0 < s.ai.max_concurrent then c.sem + 1 else c.sem) +
          (c.phases.set i TaskPhase.done).count TaskPhase.running =
        s.ai.max_concurrent
      rw [if_pos hl]
      omega

/-- C4 (config section modelled from the spec, see `AIConfig`): with a
positive configured limit, at no reachable point of a `generate_all` call
are more than `max_concurrent` worker tasks inside the backend call; with
limit `0`, every pending task may start immediately — entering the backend
call is an enabled step with no semaphore precondition. -/
theorem bounded_concurrency (s : Settings) (n : Nat) (c : ConcState)
    (h : ConcReachable s n c) :
    (0 < s.ai.max_concurrent → c.runningCount ≤ s.ai.max_concurrent) ∧
      (s.ai.max_concurrent = 0 → ∀ i, c.phases.get? i = some .waiting →
        ConcStep s c { phases := c.phases.set i .running, sem := c.sem }) := by
  constructor
  · intro hl
    have hinv := conc_invariant s n c h hl
    omega
  · intro h0 i hi
    exact ConcStep.start c i h0 hi

/-- C4 witness: the initial state of a two-task call with limit 1. -/
theorem bounded_concurrency_witness :
    (ConcState.init 2 ⟨[], ⟨1⟩, "P"⟩).runningCount ≤ 1 :=
  (bounded_concurrency ⟨[], ⟨1⟩, "P"⟩ 2 (ConcState.init 2 ⟨[], ⟨1⟩, "P"⟩)
    ConcReachable.init).1 (by decide)

end AIWeather
